import Mathlib

/-!
Shallow embedding of the semantic retrieval engine of the Finance-RAG-System
repository: `src/vector_store.py` (class `VectorStore`), `src/query_processor.py`
(class `QueryProcessor`) and the query classifier of `src/utils.py`.

Modelling conventions:
* Python floats are modelled as `Rat` (the code only adds, subtracts,
  multiplies and divides finitely many values).
* A Python document dict is modelled as a `Document` record holding the keys
  the engine touches.
* Streamlit calls (`st.warning` / `st.error` / ...) are side effects on the UI
  only; each operation's outcome is modelled by a small result inductive whose
  constructors correspond to the distinct control-flow exits of the Python
  function (normal return, early return with a warning, re-raised exception).
* `numpy` array conversion of a ragged list of lists and a `faiss` add/search
  with mismatched dimension raise; both are mapped to the `raisedError` /
  `faissError` constructors, with the state left untouched exactly as in the
  Python code (nothing is assigned before the raising call).
-/

namespace FinanceRAG

/-- A document dict as the vector store sees it: the `id` key (absent until the
engine assigns one), plus the `filename` and `content` keys used by the query
processor. -/
structure Document where
  id : Option Int
  filename : String
  content : String
deriving DecidableEq

/-- State of `VectorStore` (`vector_store.py`): `self.index` (the faiss index,
modelled by the list of stored vectors, `none` when not built), `self.dimension`
and `self.documents`. -/
structure VectorStore where
  index : Option (List (List Rat))
  dimension : Option Nat
  documents : List Document
deriving DecidableEq

/-- `VectorStore.__init__`. -/
def VectorStore.init : VectorStore := ⟨none, none, []⟩

/-- Outcome of `build_index`: early return with a warning on empty input,
normal success, or a re-raised exception from the `try` block. -/
inductive BuildResult
  | emptyInput
  | ok
  | raisedError
deriving DecidableEq

/-- Dimension of `np.array(embeddings, dtype=np.float32)` as a 2-D array:
`some d` when the rows are non-empty and all of length `d` (then
`shape[1] = d`), `none` when the conversion (or the subsequent `shape[1]`
access) raises. -/
def uniformDim : List (List Rat) → Option Nat
  | [] => none
  | v :: vs => if ∀ w ∈ vs, w.length = v.length then some v.length else none

/-- `VectorStore.build_index`: rejects empty input with a warning, otherwise
converts the embeddings, fixes the dimension, replaces the index and the
document store.  On a raising conversion nothing has been assigned yet, so the
state is unchanged. -/
def VectorStore.build_index (vs : VectorStore) (embeddings : List (List Rat))
    (documents : List Document) : BuildResult × VectorStore :=
  if embeddings.isEmpty || documents.isEmpty then (.emptyInput, vs)
  else
    match uniformDim embeddings with
    | none => (.raisedError, vs)
    | some d =>
        (.ok, { index := some embeddings, dimension := some d, documents := documents })

/-- `VectorStore.rebuild_index`: an info message, then `build_index`. -/
def VectorStore.rebuild_index (vs : VectorStore) (embeddings : List (List Rat))
    (documents : List Document) : BuildResult × VectorStore :=
  vs.build_index embeddings documents

/-- Outcome of `add_documents`: the fallback branch that builds a new index
when none exists, normal success, or a re-raised exception. -/
inductive AddResult
  | builtNew (r : BuildResult)
  | ok
  | raisedError
deriving DecidableEq

/-- Result of `add_documents`: the outcome, the store afterwards, and the
caller's `documents` list afterwards (the Python code mutates the dicts of the
caller's list in place before appending those same dicts). -/
structure AddOut where
  result : AddResult
  store : VectorStore
  docsAfter : List Document
deriving DecidableEq

/-- The id-assignment loop of `add_documents`:
`for i, doc in enumerate(documents): doc['id'] = start_id + i`. -/
def renumberDocs (start : Nat) : List Document → List Document
  | [] => []
  | d :: ds => { d with id := some (start : Int) } :: renumberDocs (start + 1) ds

/-- `VectorStore.add_documents`: with no index, falls back to `build_index`
(warning, then build); otherwise converts the embeddings and appends them to
the faiss index (which raises on a ragged list or a dimension mismatch, before
any state of ours is touched), then overwrites the `id` of each incoming
document dict in place and extends the document store with those same dicts. -/
def VectorStore.add_documents (vs : VectorStore) (embeddings : List (List Rat))
    (documents : List Document) : AddOut :=
  match vs.index with
  | none =>
      let r := vs.build_index embeddings documents
      ⟨.builtNew r.1, r.2, documents⟩
  | some vecs =>
      match uniformDim embeddings with
      | none => ⟨.raisedError, vs, documents⟩
      | some d =>
          if vs.dimension = some d then
            let newDocs := renumberDocs vs.documents.length documents
            ⟨.ok,
              { index := some (vecs ++ embeddings), dimension := vs.dimension,
                documents := vs.documents ++ newDocs },
              newDocs⟩
          else ⟨.raisedError, vs, documents⟩

/-- Number of vectors held by the faiss index (`index.ntotal`; 0 when the index
is not built). -/
def VectorStore.ntotal (vs : VectorStore) : Nat := (vs.index.getD []).length

/-- Squared Euclidean (L2) distance, the metric of `faiss.IndexFlatL2`. -/
def sqDist (q v : List Rat) : Rat :=
  ((q.zip v).map (fun p => (p.1 - p.2) * (p.1 - p.2))).sum

/-- Outcome of `search`: the not-built early return (`st.error` then `[]`),
a raising faiss call caught by the `except` branch (`st.error` then `[]`),
or a normal result list. -/
inductive SearchNote
  | notBuilt
  | faissError
  | ok
deriving DecidableEq

/-- The (id, distance) pairs of all stored vectors against a query. -/
def searchPairs (q : List Rat) (vecs : List (List Rat)) : List (Nat × Rat) :=
  (List.finRange vecs.length).map (fun i => (i.1, sqDist q (vecs.get i)))

/-- Ascending order on (id, distance) pairs: by distance, ties by id — the
order in which `faiss.IndexFlatL2.search` reports neighbours. -/
def distLe (a b : Nat × Rat) : Prop :=
  a.2 < b.2 ∨ (a.2 = b.2 ∧ a.1 ≤ b.1)

instance : DecidableRel distLe := fun a b =>
  decidable_of_iff (a.2 < b.2 ∨ (a.2 = b.2 ∧ a.1 ≤ b.1)) Iff.rfl

instance : IsTotal (Nat × Rat) distLe :=
  ⟨fun a b => by
    rcases lt_trichotomy a.2 b.2 with h | h | h
    · exact Or.inl (Or.inl h)
    · rcases Nat.le_total a.1 b.1 with h' | h'
      · exact Or.inl (Or.inr ⟨h, h'⟩)
      · exact Or.inr (Or.inr ⟨h.symm, h'⟩)
    · exact Or.inr (Or.inl h)⟩

instance : IsTrans (Nat × Rat) distLe :=
  ⟨fun a b c hab hbc => by
    rcases hab with h | ⟨he, hi⟩
    · rcases hbc with h' | ⟨he', _⟩
      · exact Or.inl (h.trans h')
      · exact Or.inl (he' ▸ h)
    · rcases hbc with h' | ⟨he', hi'⟩
      · exact Or.inl (he ▸ h')
      · exact Or.inr ⟨he.trans he', hi.trans hi'⟩⟩

/-- `VectorStore.search`: not-built early return; a query of the wrong length
makes the faiss call raise (caught, `[]` returned); otherwise faiss returns the
`min(top_k, len(self.documents))` nearest stored vectors as (id, distance)
pairs in ascending distance order. -/
def VectorStore.search (vs : VectorStore) (q : List Rat) (topK : Nat) :
    SearchNote × List (Nat × Rat) :=
  match vs.index with
  | none => (.notBuilt, [])
  | some vecs =>
      if vs.dimension = some q.length then
        (.ok, (List.insertionSort distLe (searchPairs q vecs)).take
          (min topK vs.documents.length))
      else (.faissError, [])

/-- `VectorStore.get_document`: the document at `doc_id` when
`0 <= doc_id < len(self.documents)`, the empty dict (modelled `none`)
otherwise. -/
def VectorStore.get_document (vs : VectorStore) (i : Nat) : Option Document :=
  vs.documents[i]?

/-- A retrieved document: `doc.copy()` with the keys `similarity_score` and
`distance` added (`query_processor.py`, `retrieve_documents`). -/
structure ScoredDoc where
  doc : Document
  similarity_score : Rat
  distance : Rat
deriving DecidableEq

/-- The sort order of `retrieved_docs.sort(key=..., reverse=True)`: descending
similarity. -/
def simDesc (a b : ScoredDoc) : Prop :=
  b.similarity_score ≤ a.similarity_score

instance : DecidableRel simDesc := fun a b =>
  decidable_of_iff (b.similarity_score ≤ a.similarity_score) Iff.rfl

instance : IsTotal ScoredDoc simDesc :=
  ⟨fun a b => (le_total b.similarity_score a.similarity_score).imp id id⟩

instance : IsTrans ScoredDoc simDesc :=
  ⟨fun _ _ _ hab hbc => le_trans hbc hab⟩

/-- The scoring loop of `retrieve_documents`: for each (id, distance) from the
search, look the document up, drop misses, attach
`similarity_score = 1/(1+distance)` and `distance`. -/
def scoreResults (vs : VectorStore) (searchResults : List (Nat × Rat)) : List ScoredDoc :=
  searchResults.filterMap (fun p =>
    (vs.get_document p.1).map (fun doc => ⟨doc, 1 / (1 + p.2), p.2⟩))

/-- `QueryProcessor.retrieve_documents`.  The embedding model is an external
capability, so the already-encoded query is the input: `none` models
`encode_query` returning `None` (encoding failure). -/
def retrieve_documents (queryEmbedding : Option (List Rat)) (vs : VectorStore)
    (topK : Nat) : List ScoredDoc :=
  match queryEmbedding with
  | none => []
  | some q =>
      let res := (vs.search q topK).2
      if res.isEmpty then []
      else List.insertionSort simDesc (scoreResults vs res)

/-- `QueryProcessor.filter_documents_by_threshold`. -/
def filter_documents_by_threshold (documents : List ScoredDoc) (threshold : Rat) :
    List ScoredDoc :=
  documents.filter (fun d => threshold ≤ d.similarity_score)

/-- One context block:
`f"Document: {doc['filename']}\n{doc['content']}\n---\n"`. -/
def contextBlock (d : ScoredDoc) : String :=
  "Document: " ++ d.doc.filename ++ "\n" ++ d.doc.content ++ "\n---\n"

/-- The packing loop of `prepare_context`: stop before a block that would push
the running total over `maxLength`, unless no block has been taken yet. -/
def contextParts (maxLength : Int) : List ScoredDoc → List String → Int → List String
  | [], parts, _ => parts
  | d :: ds, parts, curLen =>
      let c := contextBlock d
      if maxLength < curLen + (c.length : Int) ∧ parts ≠ [] then parts
      else contextParts maxLength ds (parts ++ [c]) (curLen + (c.length : Int))

/-- Python's `"\n".join`. -/
def joinNl : List String → String
  | [] => ""
  | [x] => x
  | x :: y :: xs => x ++ "\n" ++ joinNl (y :: xs)

/-- `QueryProcessor.prepare_context`. -/
def prepare_context (documents : List ScoredDoc) (maxLength : Int) : String :=
  if documents.isEmpty then ""
  else joinNl (contextParts maxLength documents [] 0)

/-! ### Query classifier (`src/utils.py`) -/

/-- Substring containment on character lists (Python's `needle in hay`). -/
def charsContain (needle : List Char) : List Char → Bool
  | [] => needle.isEmpty
  | c :: cs => needle.isPrefixOf (c :: cs) || charsContain needle cs

/-- Python's `needle in hay` on strings. -/
def strContains (hay needle : String) : Bool :=
  charsContain needle.data hay.data

/-- Python's `str.lower()` (ASCII, which covers every string the classifier
compares against). -/
def lowerStr (s : String) : String :=
  (s.data.map Char.toLower).asString

/-- The keyword list of `is_stock_query`. -/
def stock_keywords : List String :=
  ["stock", "share", "shares", "price", "ticker", "market", "trading",
   "volume", "chart", "performance", "trend", "bull", "bear",
   "nasdaq", "nyse", "sp500", "s&p", "dow", "equity", "securities"]

/-- `utils.is_stock_query`. -/
def is_stock_query (query : String) : Bool :=
  stock_keywords.any (fun k => strContains (lowerStr query) k)

/-- `utils.get_query_intent`: first matching category in the fixed priority
order, else `general_inquiry`. -/
def get_query_intent (query : String) : String :=
  let q := lowerStr query
  if ["price", "cost", "worth", "value", "trading at"].any (strContains q) then
    "price_inquiry"
  else if ["performance", "trend", "up", "down", "gain", "loss"].any (strContains q) then
    "performance_inquiry"
  else if ["compare", "vs", "versus", "better", "difference"].any (strContains q) then
    "comparison"
  else if ["analyze", "analysis", "report", "summary", "review"].any (strContains q) then
    "analysis_request"
  else if ["predict", "forecast", "future", "will", "expect"].any (strContains q) then
    "prediction_request"
  else if ["news", "update", "latest", "recent", "current"].any (strContains q) then
    "news_inquiry"
  else "general_inquiry"

/-- A regex word character (`\w`): letter, digit or underscore. -/
def isWordChar (c : Char) : Bool := c.isAlphanum || c == '_'

/-- Maximal runs of word characters of a character list (the accumulator holds
the current run, reversed). -/
def wordRunsAux : List Char → List Char → List (List Char)
  | [], acc => if acc.isEmpty then [] else [acc.reverse]
  | c :: cs, acc =>
      if isWordChar c then wordRunsAux cs (c :: acc)
      else if acc.isEmpty then wordRunsAux cs []
      else acc.reverse :: wordRunsAux cs []

/-- `re.findall(r'\b[A-Z]{1,5}\b', query)`: a match is exactly a maximal
word-character run made of 1 to 5 uppercase letters. -/
def symbolTokens (query : String) : List String :=
  ((wordRunsAux query.data []).filter
    (fun run => decide (1 ≤ run.length) && decide (run.length ≤ 5) &&
      run.all (fun c => decide ('A' ≤ c) && decide (c ≤ 'Z')))).map List.asString

/-- The `known_symbols` set of `extract_stock_symbols`. -/
def known_symbols : List String :=
  ["AAPL", "MSFT", "GOOGL", "GOOG", "AMZN", "TSLA", "META", "NFLX",
   "NVDA", "AMD", "INTC", "CRM", "ORCL", "IBM", "ADBE", "PYPL",
   "UBER", "LYFT", "SPOT", "TWTR", "SNAP", "PINS", "SQ", "SHOP",
   "JPM", "BAC", "WFC", "GS", "MS", "C", "V", "MA", "AXP",
   "JNJ", "PFE", "MRK", "ABBV", "TMO", "UNH", "CVS", "WBA",
   "KO", "PEP", "MCD", "SBUX", "NKE", "DIS", "HD", "WMT",
   "SPY", "QQQ", "IWM", "VTI", "VOO"]

/-- The `company_mappings` table of `extract_stock_symbols`. -/
def company_mappings : List (String × String) :=
  [("apple", "AAPL"), ("microsoft", "MSFT"), ("google", "GOOGL"),
   ("alphabet", "GOOGL"), ("amazon", "AMZN"), ("tesla", "TSLA"),
   ("facebook", "META"), ("meta", "META"), ("netflix", "NFLX"),
   ("nvidia", "NVDA"), ("intel", "INTC"), ("amd", "AMD"),
   ("oracle", "ORCL"), ("salesforce", "CRM"), ("adobe", "ADBE"),
   ("paypal", "PYPL"), ("uber", "UBER"), ("spotify", "SPOT"),
   ("twitter", "TWTR"), ("snapchat", "SNAP"), ("pinterest", "PINS"),
   ("square", "SQ"), ("shopify", "SHOP"), ("jpmorgan", "JPM"),
   ("goldman", "GS"), ("visa", "V"), ("mastercard", "MA"),
   ("johnson", "JNJ"), ("pfizer", "PFE"), ("merck", "MRK"),
   ("cocacola", "KO"), ("coca-cola", "KO"), ("pepsi", "PEP"),
   ("mcdonald", "MCD"), ("mcdonalds", "MCD"), ("starbucks", "SBUX"),
   ("nike", "NKE"), ("disney", "DIS"), ("walmart", "WMT"),
   ("homedepot", "HD")]

/-- `utils.extract_stock_symbols`: pattern matches intersected with the known
set, union company-name substring matches; the Python function returns
`list(set(...))`, i.e. a deduplicated collection with no guaranteed order. -/
def extract_stock_symbols (query : String) : List String :=
  ((symbolTokens query).filter (fun s => known_symbols.contains s) ++
    (company_mappings.filter (fun p => strContains (lowerStr query) p.1)).map Prod.snd).dedup

/-! ### Concrete test fixtures -/

/-- A first sample document. -/
def docA : Document := ⟨none, "a", "x"⟩

/-- A second sample document. -/
def docB : Document := ⟨none, "b", "y"⟩

/-- The store of the spec's search scenario: two documents with vectors
`[0,0]` and `[10,10]`, dimension 2. -/
def scenarioStore : VectorStore :=
  (VectorStore.init.build_index [[0, 0], [10, 10]] [docA, docB]).2

/-- A sample retrieved document with one-character filename and content. -/
def sampleScored : ScoredDoc := ⟨⟨none, "a", "b"⟩, 0, 0⟩

/-! ### Helper lemmas -/

theorem uniformDim_eq_length : ∀ {e : List (List Rat)} {d : Nat},
    uniformDim e = some d → ∀ v ∈ e, v.length = d
  | [], _, h => by simp [uniformDim] at h
  | v :: vs, d, h => by
    simp only [uniformDim] at h
    by_cases hall : ∀ w ∈ vs, w.length = v.length
    · rw [if_pos hall] at h
      obtain rfl : v.length = d := Option.some.inj h
      intro w hw
      rcases List.mem_cons.1 hw with rfl | hw
      · rfl
      · exact hall w hw
    · rw [if_neg hall] at h
      cases h

theorem uniformDim_ne_nil {e : List (List Rat)} {d : Nat} (h : uniformDim e = some d) :
    e ≠ [] := by
  intro he
  subst he
  simp [uniformDim] at h

theorem renumberDocs_length : ∀ (ds : List Document) (s : Nat),
    (renumberDocs s ds).length = ds.length
  | [], _ => rfl
  | _ :: ds, s => by simp [renumberDocs, renumberDocs_length ds (s + 1)]

theorem renumberDocs_getElem? : ∀ (ds : List Document) (s i : Nat),
    (renumberDocs s ds)[i]? =
      ds[i]?.map (fun dc => { dc with id := some ((s + i : Nat) : Int) })
  | [], s, i => by simp [renumberDocs]
  | d :: ds, s, 0 => by simp [renumberDocs]
  | d :: ds, s, i + 1 => by
    have h : s + 1 + i = s + (i + 1) := by omega
    simp only [renumberDocs, List.getElem?_cons_succ, renumberDocs_getElem? ds (s + 1) i, h]

theorem build_index_ok_counts {vs : VectorStore} {e : List (List Rat)}
    {docs : List Document} (hlen : e.length = docs.length)
    (h : (vs.build_index e docs).1 = .ok) :
    (vs.build_index e docs).2.ntotal = (vs.build_index e docs).2.documents.length := by
  unfold VectorStore.build_index at h ⊢
  by_cases hemp : (e.isEmpty || docs.isEmpty) = true
  · rw [if_pos hemp] at h
    cases h
  · rw [if_neg hemp] at h ⊢
    cases hu : uniformDim e with
    | none => rw [hu] at h; simp at h
    | some d => simpa [VectorStore.ntotal] using hlen

/-! ### C1 -/

/-- C1 counterexample: a build whose embeddings list (one vector) is shorter
than its documents list (two documents) is **not** rejected: it returns
normally and commits a state in which the index holds 1 vector while the
document store holds 2 documents. -/
theorem build_index_accepts_mismatched_lengths :
    (VectorStore.init.build_index [[0, 0]] [docA, docB]).1 = .ok ∧
    (VectorStore.init.build_index [[0, 0]] [docA, docB]).2.ntotal ≠
      (VectorStore.init.build_index [[0, 0]] [docA, docB]).2.documents.length := by
  decide

/-- C1 amended: after a successful `build_index`/`rebuild_index` whose
embeddings and documents lists have **equal length**, and after a successful
`add_documents` with equal-length inputs on a store already satisfying the
count invariant, the number of indexed vectors equals the number of stored
documents.  (Mismatched lengths are not rejected; equality of the input
lengths is a caller obligation.) -/
theorem counts_equal_after_equal_length_mutations :
    ∀ (vs : VectorStore) (e : List (List Rat)) (docs : List Document),
    e.length = docs.length →
    ((vs.build_index e docs).1 = .ok →
      (vs.build_index e docs).2.ntotal = (vs.build_index e docs).2.documents.length) ∧
    ((vs.rebuild_index e docs).1 = .ok →
      (vs.rebuild_index e docs).2.ntotal = (vs.rebuild_index e docs).2.documents.length) ∧
    (vs.ntotal = vs.documents.length →
      ((vs.add_documents e docs).result = .ok ∨
        (vs.add_documents e docs).result = .builtNew .ok) →
      (vs.add_documents e docs).store.ntotal =
        (vs.add_documents e docs).store.documents.length) := by
  intro vs e docs hlen
  refine ⟨build_index_ok_counts hlen, build_index_ok_counts hlen, ?_⟩
  intro hinv hok
  unfold VectorStore.add_documents at *
  cases hidx : vs.index with
  | none =>
      simp only [hidx] at hok ⊢
      rcases hok with h | h
      · cases h
      · exact build_index_ok_counts hlen (AddResult.builtNew.inj h)
  | some vecs =>
      simp only [hidx] at hok ⊢
      cases hu : uniformDim e with
      | none => simp only [hu] at hok; rcases hok with h | h <;> cases h
      | some d =>
          simp only [hu] at hok ⊢
          split at hok
          · rename_i hdim
            simp only [if_pos hdim, VectorStore.ntotal, Option.getD_some,
              List.length_append, renumberDocs_length]
            have hvs : vs.ntotal = vecs.length := by
              simp [VectorStore.ntotal, hidx]
            omega
          · rename_i hdim
            simp only [if_neg hdim] at hok
            rcases hok with h | h <;> cases h

/-- C1 amended, witness: a fresh build with one embedding and one document
ends with index count = document count. -/
theorem counts_equal_after_equal_length_mutations_witness :
    (VectorStore.init.build_index [[1, 2]] [docA]).2.ntotal =
      (VectorStore.init.build_index [[1, 2]] [docA]).2.documents.length :=
  (counts_equal_after_equal_length_mutations VectorStore.init [[1, 2]] [docA]
    (by decide)).1 (by decide)

/-! ### C3 -/

/-- C3 counterexample: `add_documents` on a store with no index does **not**
fail with `NotBuilt` and does mutate: it falls back to building a brand-new
index from the supplied data. -/
theorem add_documents_unbuilt_builds :
    (VectorStore.init.add_documents [[1, 2]] [docA]).result = .builtNew .ok ∧
    (VectorStore.init.add_documents [[1, 2]] [docA]).store ≠ VectorStore.init ∧
    (VectorStore.init.add_documents [[1, 2]] [docA]).store.index = some [[1, 2]] := by
  decide

/-- C3 amended: when no index has been built yet, `add_documents` falls back to
`build_index` (after a warning): with well-formed non-empty inputs it succeeds
and installs the given embeddings and documents as a new index, rather than
failing with `NotBuilt`; the caller's document dicts are not renumbered on this
path. -/
theorem add_documents_unbuilt_falls_back :
    ∀ (vs : VectorStore) (e : List (List Rat)) (docs : List Document) (d : Nat),
    vs.index = none → uniformDim e = some d → docs ≠ [] →
    (vs.add_documents e docs).result = .builtNew .ok ∧
    (vs.add_documents e docs).store.index = some e ∧
    (vs.add_documents e docs).store.documents = docs ∧
    (vs.add_documents e docs).docsAfter = docs := by
  intro vs e docs d hidx hu hdocs
  have he : e ≠ [] := uniformDim_ne_nil hu
  unfold VectorStore.add_documents VectorStore.build_index
  simp [hidx, hu, List.isEmpty_iff, he, hdocs]

/-- C3 amended, witness. -/
theorem add_documents_unbuilt_falls_back_witness :
    (VectorStore.init.add_documents [[1, 2]] [docA]).result = .builtNew .ok ∧
    (VectorStore.init.add_documents [[1, 2]] [docA]).store.index = some [[1, 2]] ∧
    (VectorStore.init.add_documents [[1, 2]] [docA]).store.documents = [docA] ∧
    (VectorStore.init.add_documents [[1, 2]] [docA]).docsAfter = [docA] :=
  add_documents_unbuilt_falls_back VectorStore.init [[1, 2]] [docA] 2
    (by decide) (by decide) (by decide)

/-! ### C4 -/

/-- C4: `add_documents` with some embedding whose length differs from the
index's dimension fails (the faiss `add` raises, the exception is re-raised)
and leaves the store, the document list and the caller's dicts exactly
unchanged; search behaviour is untouched. -/
theorem add_documents_dimension_mismatch_unchanged :
    ∀ (vs : VectorStore) (vecs : List (List Rat)) (D : Nat) (e : List (List Rat))
      (docs : List Document),
    vs.index = some vecs → vs.dimension = some D →
    (∃ v ∈ e, v.length ≠ D) →
    (vs.add_documents e docs).result = .raisedError ∧
    (vs.add_documents e docs).store = vs ∧
    (vs.add_documents e docs).docsAfter = docs ∧
    (∀ (q : List Rat) (k : Nat),
      (vs.add_documents e docs).store.search q k = vs.search q k) := by
  intro vs vecs D e docs hidx hdim hbad
  unfold VectorStore.add_documents
  cases hu : uniformDim e with
  | none => simp [hidx]
  | some d =>
      have hne : ¬ vs.dimension = some d := by
        rcases hbad with ⟨v, hv, hvlen⟩
        intro hcontra
        rw [hdim] at hcontra
        exact hvlen ((uniformDim_eq_length hu v hv).trans (Option.some.inj hcontra).symm)
      simp [hidx, hu, hne]

/-- C4 witness: adding a 3-dimensional vector onto the 2-dimensional scenario
index fails and changes nothing. -/
theorem add_documents_dimension_mismatch_unchanged_witness :
    (scenarioStore.add_documents [[1, 2, 3]] [docA]).result = .raisedError ∧
    (scenarioStore.add_documents [[1, 2, 3]] [docA]).store = scenarioStore ∧
    (scenarioStore.add_documents [[1, 2, 3]] [docA]).docsAfter = [docA] ∧
    (∀ (q : List Rat) (k : Nat),
      (scenarioStore.add_documents [[1, 2, 3]] [docA]).store.search q k =
        scenarioStore.search q k) :=
  add_documents_dimension_mismatch_unchanged scenarioStore [[0, 0], [10, 10]] 2
    [[1, 2, 3]] [docA] (by decide) (by decide) (by decide)

/-! ### C5 -/

/-- C5: on **any** store (built or not), a failed query encoding (`none`
embedding) makes `retrieve_documents` return the empty list rather than
raising; and with no index built, `search` takes the not-built error path (an
`st.error` message, here the `notBuilt` note) and yields no results, and
`retrieve_documents` likewise returns the empty list. -/
theorem retrieve_degrades_search_not_built :
    ∀ (vs : VectorStore) (q : List Rat) (k : Nat),
    retrieve_documents none vs k = [] ∧
    (vs.index = none →
      retrieve_documents (some q) vs k = [] ∧
      vs.search q k = (.notBuilt, [])) := by
  intro vs q k
  refine ⟨rfl, ?_⟩
  intro hidx
  have hs : vs.search q k = (.notBuilt, []) := by
    unfold VectorStore.search
    rw [hidx]
  refine ⟨?_, hs⟩
  simp [retrieve_documents, hs]

/-- C5 witness: encoding failure on the **built** scenario store still yields
`[]`, and the fresh store exercises the unbuilt branch. -/
theorem retrieve_degrades_search_not_built_witness :
    retrieve_documents none scenarioStore 5 = [] ∧
    retrieve_documents (some [1]) VectorStore.init 5 = [] ∧
    VectorStore.init.search [1] 5 = (.notBuilt, []) :=
  ⟨(retrieve_degrades_search_not_built scenarioStore [1] 5).1,
   ((retrieve_degrades_search_not_built VectorStore.init [1] 5).2 (by decide)).1,
   ((retrieve_degrades_search_not_built VectorStore.init [1] 5).2 (by decide)).2⟩

/-! ### C10 -/

/-- C10: a successful `add_documents` onto a built index overwrites the `id`
key of each dict of the caller's `documents` list in place — the i-th dict
gets id `len(store) + i` — and the very same (updated) dicts are what the
store is extended with. -/
theorem add_documents_renumbers_in_place :
    ∀ (vs : VectorStore) (vecs : List (List Rat)) (d : Nat) (e : List (List Rat))
      (docs : List Document),
    vs.index = some vecs → uniformDim e = some d → vs.dimension = some d →
    (vs.add_documents e docs).result = .ok ∧
    (vs.add_documents e docs).docsAfter.length = docs.length ∧
    (∀ i : Nat, (vs.add_documents e docs).docsAfter[i]? =
      docs[i]?.map (fun dc => { dc with id := some ((vs.documents.length + i : Nat) : Int) })) ∧
    (vs.add_documents e docs).store.documents =
      vs.documents ++ (vs.add_documents e docs).docsAfter := by
  intro vs vecs d e docs hidx hu hdim
  unfold VectorStore.add_documents
  simp [hidx, hu, hdim, renumberDocs_length, renumberDocs_getElem?]

/-- C10 witness: adding one document to the two-document scenario store gives
it id 2 in the caller's own list. -/
theorem add_documents_renumbers_in_place_witness :
    (scenarioStore.add_documents [[1, 2]] [docA]).result = .ok ∧
    (scenarioStore.add_documents [[1, 2]] [docA]).docsAfter[0]? =
      [docA][0]?.map
        (fun dc => { dc with id := some ((scenarioStore.documents.length + 0 : Nat) : Int) }) ∧
    (scenarioStore.add_documents [[1, 2]] [docA]).store.documents =
      scenarioStore.documents ++ (scenarioStore.add_documents [[1, 2]] [docA]).docsAfter :=
  ⟨(add_documents_renumbers_in_place scenarioStore [[0, 0], [10, 10]] 2 [[1, 2]] [docA]
      (by decide) (by decide) (by decide)).1,
   (add_documents_renumbers_in_place scenarioStore [[0, 0], [10, 10]] 2 [[1, 2]] [docA]
      (by decide) (by decide) (by decide)).2.2.1 0,
   (add_documents_renumbers_in_place scenarioStore [[0, 0], [10, 10]] 2 [[1, 2]] [docA]
      (by decide) (by decide) (by decide)).2.2.2⟩

/-! ### C7 -/

/-- A second sample retrieved document, with similarity 1. -/
def scoredHi : ScoredDoc := ⟨⟨none, "c", "d"⟩, 1, 0⟩

/-- C7: `filter_documents_by_threshold` returns exactly the order-preserving
subsequence of its input whose entries have similarity ≥ threshold: it is a
sublist, membership is characterised by the threshold test, and every
occurrence count is either kept exactly or dropped to zero. -/
theorem filter_by_threshold_exact :
    ∀ (R : List ScoredDoc) (t : Rat),
    (filter_documents_by_threshold R t).Sublist R ∧
    (∀ d : ScoredDoc, d ∈ filter_documents_by_threshold R t ↔
      d ∈ R ∧ t ≤ d.similarity_score) ∧
    (∀ d : ScoredDoc, (filter_documents_by_threshold R t).count d =
      if t ≤ d.similarity_score then R.count d else 0) := by
  intro R t
  refine ⟨List.filter_sublist _, ?_, ?_⟩
  · intro d
    simp [filter_documents_by_threshold]
  · intro d
    by_cases ht : t ≤ d.similarity_score
    · rw [if_pos ht]
      exact List.count_filter (by simpa using ht)
    · rw [if_neg ht]
      refine List.count_eq_zero.2 ?_
      intro hmem
      exact ht (by simpa using (List.mem_filter.1 hmem).2)

/-- C7 witness: threshold 1 on a two-element list keeps only the
similarity-1 entry. -/
theorem filter_by_threshold_exact_witness :
    (filter_documents_by_threshold [scoredHi, sampleScored] 1).Sublist
      [scoredHi, sampleScored] ∧
    (sampleScored ∈ filter_documents_by_threshold [scoredHi, sampleScored] 1 ↔
      sampleScored ∈ [scoredHi, sampleScored] ∧ 1 ≤ sampleScored.similarity_score) ∧
    ((filter_documents_by_threshold [scoredHi, sampleScored] 1).count sampleScored =
      if 1 ≤ sampleScored.similarity_score then
        ([scoredHi, sampleScored].count sampleScored) else 0) :=
  ⟨(filter_by_threshold_exact [scoredHi, sampleScored] 1).1,
   (filter_by_threshold_exact [scoredHi, sampleScored] 1).2.1 sampleScored,
   (filter_by_threshold_exact [scoredHi, sampleScored] 1).2.2 sampleScored⟩

/-! ### C2 -/

/-- Total character count of a list of blocks. -/
def partsTotalN (l : List String) : Nat := (l.map String.length).sum

/-- Total character count of a list of blocks, as an integer. -/
def partsTotal (l : List String) : Int := (partsTotalN l : Int)

theorem partsTotal_append_single (l : List String) (c : String) :
    partsTotal (l ++ [c]) = partsTotal l + (c.length : Int) := by
  simp [partsTotal, partsTotalN]

theorem contextParts_extends (M : Int) : ∀ (ds : List ScoredDoc) (parts : List String)
    (cur : Int), ∃ rest, contextParts M ds parts cur = parts ++ rest := by
  intro ds
  induction ds with
  | nil => intro parts cur; exact ⟨[], by simp [contextParts]⟩
  | cons d ds ih =>
      intro parts cur
      by_cases hc : M < cur + ((contextBlock d).length : Int) ∧ parts ≠ []
      · refine ⟨[], ?_⟩
        simp only [contextParts]
        rw [if_pos hc, List.append_nil]
      · obtain ⟨rest, hrest⟩ := ih (parts ++ [contextBlock d])
          (cur + ((contextBlock d).length : Int))
        refine ⟨contextBlock d :: rest, ?_⟩
        simp only [contextParts]
        rw [if_neg hc, hrest, List.append_assoc]
        rfl

theorem contextParts_total_le (M : Int) : ∀ (ds : List ScoredDoc) (parts : List String)
    (cur : Int), cur = partsTotal parts →
    (2 ≤ parts.length → partsTotal parts ≤ M) →
    2 ≤ (contextParts M ds parts cur).length →
    partsTotal (contextParts M ds parts cur) ≤ M := by
  intro ds
  induction ds with
  | nil =>
      intro parts cur _ hp h2
      simp only [contextParts] at h2 ⊢
      exact hp h2
  | cons d ds ih =>
      intro parts cur hc hp h2
      by_cases hcb : M < cur + ((contextBlock d).length : Int) ∧ parts ≠ []
      · simp only [contextParts] at h2 ⊢
        rw [if_pos hcb] at h2 ⊢
        exact hp h2
      · simp only [contextParts] at h2 ⊢
        rw [if_neg hcb] at h2 ⊢
        refine ih (parts ++ [contextBlock d]) _ ?_ ?_ h2
        · rw [partsTotal_append_single, hc]
        · intro h2'
          rw [partsTotal_append_single]
          by_cases hparts : parts = []
          · subst hparts
            simp at h2'
          · have hA : ¬ M < cur + ((contextBlock d).length : Int) :=
              fun hA => hcb ⟨hA, hparts⟩
            have hle := not_lt.1 hA
            rw [hc] at hle
            omega

theorem joinNl_length : ∀ (x : String) (xs : List String),
    (joinNl (x :: xs)).length = partsTotalN (x :: xs) + xs.length := by
  intro x xs
  induction xs generalizing x with
  | nil => simp [joinNl, partsTotalN]
  | cons y ys ih =>
      have hstep : joinNl (x :: y :: ys) = x ++ "\n" ++ joinNl (y :: ys) := rfl
      have hnl : ("\n" : String).length = 1 := rfl
      rw [hstep, String.length_append, String.length_append, ih y, hnl]
      simp only [partsTotalN, List.map_cons, List.sum_cons, List.length_cons]
      omega

/-- C2 counterexample: two one-character-filename, one-character-content
blocks of 18 characters each against a budget of 36: both blocks are packed
(their lengths sum to exactly 36) and the first block alone is within budget,
yet the returned text is 37 characters long — `"\n".join` inserts a separator
the budget check never counts. -/
theorem pack_context_exceeds_budget :
    (contextParts 36 [sampleScored, sampleScored] [] 0).length = 2 ∧
    ((contextBlock sampleScored).length : Int) ≤ 36 ∧
    36 < ((prepare_context [sampleScored, sampleScored] 36).length : Int) := by
  decide

/-- C2 amended: `prepare_context` returns `""` on the empty list; on a
non-empty list the first block is always packed (even over budget); and
whenever two or more blocks are packed, the **sum of the block lengths** is
within `max_chars`, while the returned text additionally contains one joining
newline per block after the first, so its length is that sum plus
(number of blocks − 1) and may thus exceed `max_chars` by up to
(number of blocks − 1) characters. -/
theorem pack_context_props :
    (∀ M : Int, prepare_context [] M = "") ∧
    (∀ (d : ScoredDoc) (ds : List ScoredDoc) (M : Int),
      ∃ rest, contextParts M (d :: ds) [] 0 = contextBlock d :: rest) ∧
    (∀ (docs : List ScoredDoc) (M : Int),
      2 ≤ (contextParts M docs [] 0).length →
        partsTotal (contextParts M docs [] 0) ≤ M) ∧
    (∀ (d : ScoredDoc) (ds : List ScoredDoc) (M : Int),
      ((prepare_context (d :: ds) M).length : Int) + 1 =
        partsTotal (contextParts M (d :: ds) [] 0) +
          (contextParts M (d :: ds) [] 0).length) := by
  have hfirst : ∀ (d : ScoredDoc) (ds : List ScoredDoc) (M : Int),
      ∃ rest, contextParts M (d :: ds) [] 0 = contextBlock d :: rest := by
    intro d ds M
    have hstep : contextParts M (d :: ds) [] 0 =
        contextParts M ds [contextBlock d] (0 + ((contextBlock d).length : Int)) := by
      simp only [contextParts]
      rw [if_neg (by simp), List.nil_append]
    obtain ⟨rest, hrest⟩ :=
      contextParts_extends M ds [contextBlock d] (0 + ((contextBlock d).length : Int))
    exact ⟨rest, by rw [hstep, hrest]; rfl⟩
  refine ⟨fun M => rfl, hfirst, ?_, ?_⟩
  · intro docs M h2
    exact contextParts_total_le M docs [] 0 (by simp [partsTotal, partsTotalN])
      (by intro h; simp at h) h2
  · intro d ds M
    obtain ⟨rest, hrest⟩ := hfirst d ds M
    have hne : prepare_context (d :: ds) M = joinNl (contextParts M (d :: ds) [] 0) := by
      simp [prepare_context]
    rw [hne, hrest, joinNl_length]
    simp only [partsTotal, List.length_cons]
    push_cast
    ring

/-- C2 amended, witness: with budget 100 both 18-character blocks fit and
their total is within budget. -/
theorem pack_context_props_witness :
    2 ≤ (contextParts 100 [sampleScored, sampleScored] [] 0).length ∧
    partsTotal (contextParts 100 [sampleScored, sampleScored] [] 0) ≤ 100 :=
  ⟨by decide, pack_context_props.2.2.1 [sampleScored, sampleScored] 100 (by decide)⟩

/-! ### Search lemmas (C8, C6) -/

theorem sqDist_nonneg (q v : List Rat) : 0 ≤ sqDist q v := by
  refine List.sum_nonneg ?_
  intro x hx
  rcases List.mem_map.1 hx with ⟨p, _, rfl⟩
  exact mul_self_nonneg _

theorem mem_searchPairs {q : List Rat} {vecs : List (List Rat)} {p : Nat × Rat}
    (hp : p ∈ searchPairs q vecs) :
    ∃ h : p.1 < vecs.length, p.2 = sqDist q (vecs.get ⟨p.1, h⟩) := by
  rcases List.mem_map.1 hp with ⟨i, _, rfl⟩
  exact ⟨i.isLt, rfl⟩

theorem searchPairs_length (q : List Rat) (vecs : List (List Rat)) :
    (searchPairs q vecs).length = vecs.length := by
  simp [searchPairs]

theorem distLe_le {a b : Nat × Rat} (h : distLe a b) : a.2 ≤ b.2 :=
  h.elim le_of_lt (fun h => le_of_eq h.1)

theorem search_eq_of_built {vs : VectorStore} {vecs : List (List Rat)} {q : List Rat}
    (hidx : vs.index = some vecs) (hdim : vs.dimension = some q.length) (k : Nat) :
    vs.search q k = (.ok,
      (List.insertionSort distLe (searchPairs q vecs)).take
        (min k vs.documents.length)) := by
  unfold VectorStore.search
  rw [hidx]
  simp [hdim]

theorem search_eq_of_wrong_dim {vs : VectorStore} {vecs : List (List Rat)} {q : List Rat}
    (hidx : vs.index = some vecs) (hdim : ¬ vs.dimension = some q.length) (k : Nat) :
    vs.search q k = (.faissError, []) := by
  unfold VectorStore.search
  rw [hidx]
  simp [hdim]

theorem search_pairwise_dist (vs : VectorStore) (q : List Rat) (k : Nat) :
    (vs.search q k).2.Pairwise (fun a b : Nat × Rat => a.2 ≤ b.2) := by
  cases hidx : vs.index with
  | none =>
      have h : vs.search q k = (.notBuilt, []) := by
        unfold VectorStore.search
        rw [hidx]
      rw [h]
      exact List.Pairwise.nil
  | some vecs =>
      by_cases hdim : vs.dimension = some q.length
      · rw [search_eq_of_built hidx hdim k]
        exact List.Pairwise.imp distLe_le
          ((List.sorted_insertionSort distLe _).sublist (List.take_sublist _ _))
      · rw [search_eq_of_wrong_dim hidx hdim k]
        exact List.Pairwise.nil

theorem mem_search_sqDist {vs : VectorStore} {q : List Rat} {k : Nat} {p : Nat × Rat}
    (hp : p ∈ (vs.search q k).2) :
    ∃ vecs, vs.index = some vecs ∧
      ∃ h : p.1 < vecs.length, p.2 = sqDist q (vecs.get ⟨p.1, h⟩) := by
  cases hidx : vs.index with
  | none =>
      have h : vs.search q k = (.notBuilt, []) := by
        unfold VectorStore.search
        rw [hidx]
      rw [h] at hp
      cases hp
  | some vecs =>
      by_cases hdim : vs.dimension = some q.length
      · rw [search_eq_of_built hidx hdim k] at hp
        have hp' : p ∈ searchPairs q vecs :=
          (List.perm_insertionSort distLe _).mem_iff.1 (List.take_subset _ _ hp)
        exact ⟨vecs, rfl, mem_searchPairs hp'⟩
      · rw [search_eq_of_wrong_dim hidx hdim k] at hp
        cases hp

theorem search_dist_nonneg {vs : VectorStore} {q : List Rat} {k : Nat} :
    ∀ p ∈ (vs.search q k).2, 0 ≤ p.2 := by
  intro p hp
  rcases mem_search_sqDist hp with ⟨vecs, _, h, hd⟩
  rw [hd]
  exact sqDist_nonneg _ _

/-! ### C8 -/

/-- A desynchronised store, reachable because `build_index` accepts
mismatched input lengths (see C1): 3 vectors but only 2 documents. -/
def desyncStore : VectorStore :=
  (VectorStore.init.build_index [[0], [1], [2]] [docA, docB]).2

unseal Rat.mul Rat.sub Rat.add Rat.inv in
/-- C8 counterexample: in a reachable desynchronised state holding 3 vectors
and 2 documents, `search(q, 3)` returns only 2 pairs — the code clamps `k` to
`len(self.documents)`, not to the current vector count (which would give
`min 3 3 = 3` results). -/
theorem search_clamps_to_document_count :
    desyncStore.ntotal = 3 ∧
    desyncStore.documents.length = 2 ∧
    (desyncStore.search [0] 3).1 = .ok ∧
    (desyncStore.search [0] 3).2.length = 2 := by
  decide

unseal Rat.mul Rat.sub Rat.add Rat.inv in
/-- C8 amended: on a built index, for a query of the index's dimension,
`search` succeeds and returns squared-L2 (id, distance) pairs in ascending
distance order, with `k` clamped to the current **document** count (and the
result further truncated to the number of stored vectors, as faiss pads
missing neighbours with ids `-1`, which the code filters out); every returned
distance is the squared L2 distance of the identified stored vector, and
every stored vector not returned is at least as far as every returned one.
Whenever mutations kept the count invariant, the document count equals the
vector count and the original clamp reading holds.  In particular, on
vectors `[0,0]`, `[10,10]` with query `[1,1]`, `search(q, 1)` returns id 0 at
distance 2. -/
theorem search_returns_k_smallest :
    (∀ (vs : VectorStore) (vecs : List (List Rat)) (D : Nat) (q : List Rat) (k : Nat),
      vs.index = some vecs → vs.dimension = some D → q.length = D →
      (vs.search q k).1 = .ok ∧
      (vs.search q k).2.length = min (min k vs.documents.length) vecs.length ∧
      (vs.search q k).2.Pairwise (fun a b : Nat × Rat => a.2 ≤ b.2) ∧
      (∀ p ∈ (vs.search q k).2,
        ∃ h : p.1 < vecs.length, p.2 = sqDist q (vecs.get ⟨p.1, h⟩)) ∧
      (∀ p ∈ (vs.search q k).2, ∀ p' ∈ searchPairs q vecs,
        p' ∉ (vs.search q k).2 → p.2 ≤ p'.2)) ∧
    scenarioStore.search [1, 1] 1 = (.ok, [(0, 2)]) := by
  constructor
  · intro vs vecs D q k hidx hdim hq
    subst hq
    have hs := search_eq_of_built hidx hdim k
    have hsortlen : (List.insertionSort distLe (searchPairs q vecs)).length = vecs.length := by
      rw [(List.perm_insertionSort distLe (searchPairs q vecs)).length_eq, searchPairs_length]
    refine ⟨by rw [hs], ?_, search_pairwise_dist vs q k, ?_, ?_⟩
    · rw [hs]
      simp only [List.length_take, hsortlen]
    · intro p hp
      rcases mem_search_sqDist hp with ⟨vecs', hidx', hmem⟩
      rw [hidx] at hidx'
      obtain rfl : vecs = vecs' := Option.some.inj hidx'
      exact hmem
    · intro p hp p' hp'pairs hp'not
      rw [hs] at hp hp'not
      have hsort : List.Pairwise distLe (List.insertionSort distLe (searchPairs q vecs)) :=
        List.sorted_insertionSort distLe _
      have hsplit := List.take_append_drop (min k vs.documents.length)
        (List.insertionSort distLe (searchPairs q vecs))
      have hp'sorted : p' ∈ List.insertionSort distLe (searchPairs q vecs) :=
        (List.perm_insertionSort distLe _).mem_iff.2 hp'pairs
      have hp'mem : p' ∈ (List.insertionSort distLe (searchPairs q vecs)).take
            (min k vs.documents.length) ∨
          p' ∈ (List.insertionSort distLe (searchPairs q vecs)).drop
            (min k vs.documents.length) := by
        rw [← List.mem_append, hsplit]
        exact hp'sorted
      rcases hp'mem with h | hdrop
      · exact absurd h hp'not
      · have hpw : List.Pairwise distLe
            ((List.insertionSort distLe (searchPairs q vecs)).take
                (min k vs.documents.length) ++
              (List.insertionSort distLe (searchPairs q vecs)).drop
                (min k vs.documents.length)) := by
          rw [hsplit]
          exact hsort
        obtain ⟨-, -, hcross⟩ := List.pairwise_append.1 hpw
        exact distLe_le (hcross p hp p' hdrop)
  · decide

/-- C8 amended, witness: the scenario store satisfies all hypotheses; its
top-1 search has length `min (min 1 2) 2`. -/
theorem search_returns_k_smallest_witness :
    (scenarioStore.search [1, 1] 1).1 = .ok ∧
    (scenarioStore.search [1, 1] 1).2.length =
      min (min 1 scenarioStore.documents.length)
        ([[0, 0], [10, 10]] : List (List Rat)).length :=
  ⟨(search_returns_k_smallest.1 scenarioStore [[0, 0], [10, 10]] 2 [1, 1] 1
      (by decide) (by decide) (by decide)).1,
   (search_returns_k_smallest.1 scenarioStore [[0, 0], [10, 10]] 2 [1, 1] 1
      (by decide) (by decide) (by decide)).2.1⟩

/-! ### C6 -/

theorem mem_scoreResults {vs : VectorStore} {l : List (Nat × Rat)} {r : ScoredDoc}
    (hr : r ∈ scoreResults vs l) :
    ∃ p ∈ l, r.similarity_score = 1 / (1 + p.2) ∧ r.distance = p.2 := by
  rcases List.mem_filterMap.1 hr with ⟨p, hp, hf⟩
  rcases Option.map_eq_some'.1 hf with ⟨doc, -, rfl⟩
  exact ⟨p, hp, rfl, rfl⟩

theorem scoreResults_pairwise {vs : VectorStore} {l : List (Nat × Rat)}
    (hpw : l.Pairwise (fun a b : Nat × Rat => a.2 ≤ b.2))
    (hnn : ∀ p ∈ l, 0 ≤ p.2) :
    (scoreResults vs l).Pairwise simDesc := by
  have hpw' : l.Pairwise (fun a b : Nat × Rat => a.2 ≤ b.2 ∧ 0 ≤ a.2) :=
    hpw.imp_of_mem (fun ha _ h => ⟨h, hnn _ ha⟩)
  refine List.Pairwise.filterMap _ ?_ hpw'
  intro a a' hrel b hb b' hb'
  rw [Option.mem_def] at hb hb'
  rcases Option.map_eq_some'.1 hb with ⟨doc, -, rfl⟩
  rcases Option.map_eq_some'.1 hb' with ⟨doc', -, rfl⟩
  show (1 : Rat) / (1 + a'.2) ≤ 1 / (1 + a.2)
  have h1 : (0 : Rat) < 1 + a.2 := by linarith [hrel.2]
  exact one_div_le_one_div_of_le h1 (by linarith [hrel.1])

/-- C6: every result of `retrieve_documents` carries
`similarity = 1/(1 + distance)` with a non-negative distance; similarity is
strictly decreasing in distance across results; the output is sorted
descending by similarity; and it equals the scored search output in search
order (the stable descending sort leaves the already-descending list
untouched, so equal similarities stay in the search's ascending-distance
order). -/
theorem retrieve_documents_props :
    ∀ (vs : VectorStore) (q : List Rat) (k : Nat),
    (∀ r ∈ retrieve_documents (some q) vs k,
      r.similarity_score = 1 / (1 + r.distance) ∧ 0 ≤ r.distance) ∧
    (∀ a ∈ retrieve_documents (some q) vs k, ∀ b ∈ retrieve_documents (some q) vs k,
      a.distance < b.distance → b.similarity_score < a.similarity_score) ∧
    (retrieve_documents (some q) vs k).Pairwise simDesc ∧
    retrieve_documents (some q) vs k = scoreResults vs (vs.search q k).2 := by
  intro vs q k
  have hpw := search_pairwise_dist vs q k
  have hnn : ∀ p ∈ (vs.search q k).2, 0 ≤ p.2 := search_dist_nonneg
  have hscored : (scoreResults vs (vs.search q k).2).Pairwise simDesc :=
    scoreResults_pairwise hpw hnn
  have heq : retrieve_documents (some q) vs k = scoreResults vs (vs.search q k).2 := by
    by_cases hres : (vs.search q k).2.isEmpty
    · have h0 : (vs.search q k).2 = [] := List.isEmpty_iff.1 hres
      simp [retrieve_documents, hres, h0, scoreResults]
    · simp only [retrieve_documents]
      rw [if_neg hres]
      exact List.Sorted.insertionSort_eq hscored
  refine ⟨?_, ?_, heq ▸ hscored, heq⟩
  · intro r hr
    rw [heq] at hr
    rcases mem_scoreResults hr with ⟨p, hp, hsim, hdist⟩
    exact ⟨by rw [hsim, hdist], by rw [hdist]; exact hnn p hp⟩
  · intro a ha b hb hab
    rw [heq] at ha hb
    rcases mem_scoreResults ha with ⟨pa, hpa, hsa, hda⟩
    rcases mem_scoreResults hb with ⟨pb, hpb, hsb, hdb⟩
    rw [hsa, hsb, ← hda, ← hdb]
    have h0a : 0 ≤ a.distance := by rw [hda]; exact hnn pa hpa
    have h1 : (0 : Rat) < 1 + a.distance := by linarith
    exact one_div_lt_one_div_of_lt h1 (by linarith)

/-- C6 witness: retrieval over the scenario store equals its scored search
output. -/
theorem retrieve_documents_props_witness :
    retrieve_documents (some [1, 1]) scenarioStore 5 =
      scoreResults scenarioStore ((scenarioStore.search [1, 1] 5).2) :=
  (retrieve_documents_props scenarioStore [1, 1] 5).2.2.2

/-! ### C9 -/

/-- C9 counterexample: `is_stock_query` on `"Compare AAPL vs MSFT"` is
`False` — no keyword of the fixed market set occurs in the lower-cased query —
so the scenario's claimed domain tag `market` does not hold. -/
theorem classify_compare_not_stock :
    is_stock_query "Compare AAPL vs MSFT" = false := by
  decide

/-- C9 amended: classifying `"Compare AAPL vs MSFT"` yields domain `general`
(`is_stock_query` returns `False`), intent `comparison`, and symbol set
exactly `{AAPL, MSFT}`. -/
theorem classify_compare_scenario :
    is_stock_query "Compare AAPL vs MSFT" = false ∧
    get_query_intent "Compare AAPL vs MSFT" = "comparison" ∧
    (extract_stock_symbols "Compare AAPL vs MSFT").toFinset =
      ({"AAPL", "MSFT"} : Finset String) := by
  decide

end FinanceRAG
